import Mathlib

/-!
Shallow embedding of the market-data client in `src/services/cryptoService.ts`
of the godsdollar repository.  Time (`Date.now()`) is threaded explicitly as a
`Nat` millisecond timestamp; network responses are supplied by explicit oracle
arguments; the module-level mutable `cache` object becomes an explicit
`CryptoCache` value threaded through every operation.  Every provider request
the code would issue is recorded in a trace so that "no request is issued"
claims are statable.
-/

/-- Embedding of JavaScript `String.prototype.toLowerCase` restricted to the
ASCII range (the only characters the service ever passes to it): characters
`A`-`Z` are shifted to `a`-`z`, all others are unchanged. -/
def jsCharToLower (c : Char) : Char :=
  if 65 ≤ c.toNat ∧ c.toNat ≤ 90 then Char.ofNat (c.toNat + 32) else c

/-- `s.toLowerCase()` over the characters of `s`. -/
def jsToLower (s : String) : String :=
  String.mk (s.data.map jsCharToLower)

/-- `s.trim()` over the characters of `s` (ASCII whitespace suffices for the
query strings in scope). -/
def jsTrim (s : String) : String :=
  String.mk (((s.data.dropWhile Char.isWhitespace).reverse.dropWhile
    Char.isWhitespace).reverse)

/-- Embedding of `parseInt` as used on the `x-ratelimit-reset` header value:
parses the leading decimal-digit prefix, `none` when there is none (JS `NaN`). -/
def parseIntJS (s : String) : Option Nat :=
  let digits := s.data.takeWhile Char.isDigit
  if digits.isEmpty then none
  else some (digits.foldl (fun n c => n * 10 + (c.toNat - 48)) 0)

-- Service configuration constants (lines 120-121 of the source).
/-- `API_BACKOFF_MS = 2000`: backoff time between 429 retries. -/
def API_BACKOFF_MS : Nat := 2000

/-- `MAX_RETRIES = 3`: maximum number of retries for API calls. -/
def MAX_RETRIES : Nat := 3

/-- `DEFAULT_PLACEHOLDER = '/public/placeholder.svg'`. -/
def DEFAULT_PLACEHOLDER : String := "/public/placeholder.svg"

/-- `cacheExpiry`: 5 minutes in milliseconds (field default of `CryptoCache`). -/
def cacheExpiry : Nat := 5 * 60 * 1000

/-- `apiCooldown`: 1 minute in milliseconds (field default of `CryptoCache`). -/
def apiCooldown : Nat := 60 * 1000

/-- An asset quote as returned by the client (`CoinData` interface).
JS numbers are embedded as rationals. -/
structure CoinData where
  id : String
  symbol : String
  name : String
  image : String
  current_price : ℚ
  price_change_percentage_24h : ℚ
  market_cap : ℚ
  market_cap_rank : ℚ
  total_volume : ℚ
  high_24h : Option ℚ
  low_24h : Option ℚ
deriving Repr, DecidableEq

/-- A row of the primary provider's `/coins/markets` response
(`CoinGeckoMarketData` interface). -/
structure CoinGeckoMarketData where
  id : String
  symbol : String
  name : String
  image : String
  current_price : ℚ
  price_change_percentage_24h : ℚ
  market_cap : ℚ
  market_cap_rank : ℚ
  total_volume : ℚ
  high_24h : Option ℚ
  low_24h : Option ℚ
deriving Repr

/-- A row of the secondary provider's `/currencies` response
(`MoonPayCurrency` interface); optional numeric fields may be absent. -/
structure MoonPayCurrency where
  code : String
  name : String
  logoUrl : Option String
  price : Option ℚ
  change24Hour : Option ℚ
  marketCap : Option ℚ
  rank : Option ℚ
  volume24Hour : Option ℚ
  btcRate : Option ℚ
deriving Repr

/-- A search-response row (`SearchResultItem` interface). -/
structure SearchResultItem where
  id : String
  name : String
  symbol : String
  thumb : Option String
  small : Option String
  market_cap_rank : Option ℚ
deriving Repr

/-- A cached API payload together with the timestamp it was stored
(`CachedData<T>`); payloads in scope of the verified claims are coin lists. -/
structure CachedData where
  data : List CoinData
  timestamp : Nat
deriving Repr

/-- The module-level `CryptoCache` object.  The JS `Map`s/`Set` become
association lists (insert = cons, lookup = first match, matching `Map.set`
overwrite semantics) and a plain list for the blacklist `Set`. -/
structure CryptoCache where
  imageCache : List (String × String)
  apiCache : List (String × CachedData)
  apiCallAttempts : List (String × Nat)
  rateLimitedUntil : Nat
  coinBlacklist : List String
deriving Repr

/-- `new CryptoCache()` (line 223): every container empty, no gate. -/
def CryptoCache.init : CryptoCache :=
  { imageCache := [], apiCache := [], apiCallAttempts := [],
    rateLimitedUntil := 0, coinBlacklist := [] }

/-- `setImageUrl`: stores under the lowercased coin id. -/
def CryptoCache.setImageUrl (c : CryptoCache) (coinId url : String) : CryptoCache :=
  { c with imageCache := (jsToLower coinId, url) :: c.imageCache }

/-- `getImageUrl`: looks up the lowercased coin id. -/
def CryptoCache.getImageUrl (c : CryptoCache) (coinId : String) : Option String :=
  (c.imageCache.find? (fun p => decide (p.1 = jsToLower coinId))).map (fun p => p.2)

/-- `setApiData`: stores the payload with the current timestamp. -/
def CryptoCache.setApiData (c : CryptoCache) (now : Nat) (key : String)
    (data : List CoinData) : CryptoCache :=
  { c with apiCache := (key, ⟨data, now⟩) :: c.apiCache }

/-- `getApiData`: returns the entry only while `Date.now() - timestamp` is
strictly below the 5-minute expiry, otherwise behaves as a miss. -/
def CryptoCache.getApiData (c : CryptoCache) (now : Nat) (key : String) :
    Option (List CoinData) :=
  match c.apiCache.find? (fun p => decide (p.1 = key)) with
  | some p => if now - p.2.timestamp < cacheExpiry then some p.2.data else none
  | none => none

/-- `isRateLimited`: the gate is active while `Date.now() < rateLimitedUntil`. -/
def CryptoCache.isRateLimited (c : CryptoCache) (now : Nat) : Bool :=
  decide (now < c.rateLimitedUntil)

/-- `setRateLimited(isLimited, waitTimeSeconds?)`: a truthy wait time (present
and nonzero; `none` models both `undefined` and `NaN`) is used as‑is in
seconds, otherwise the 5-minute default applies. -/
def CryptoCache.setRateLimited (c : CryptoCache) (now : Nat) (isLimited : Bool)
    (waitTimeSeconds : Option Nat) : CryptoCache :=
  if isLimited then
    let waitTimeMs : Nat :=
      match waitTimeSeconds with
      | some w => if w ≠ 0 then w * 1000 else 5 * 60 * 1000
      | none => 5 * 60 * 1000
    { c with rateLimitedUntil := now + waitTimeMs }
  else
    { c with rateLimitedUntil := 0 }

/-- `addToBlacklist`: inserts the lowercased coin id. -/
def CryptoCache.addToBlacklist (c : CryptoCache) (coinId : String) : CryptoCache :=
  { c with coinBlacklist := jsToLower coinId :: c.coinBlacklist }

/-- `isBlacklisted`: membership of the lowercased coin id. -/
def CryptoCache.isBlacklisted (c : CryptoCache) (coinId : String) : Bool :=
  decide (jsToLower coinId ∈ c.coinBlacklist)

/-- `shouldTryApiCall`: false while rate limited or blacklisted; otherwise true
when there was no previous attempt (or a falsy timestamp 0) or the last attempt
is older than the 1-minute cooldown. -/
def CryptoCache.shouldTryApiCall (c : CryptoCache) (now : Nat) (coinId : String) : Bool :=
  if c.isRateLimited now || c.isBlacklisted (jsToLower coinId) then false
  else
    match c.apiCallAttempts.find? (fun p => decide (p.1 = jsToLower coinId)) with
    | none => true
    | some p => if p.2 = 0 then true else decide (now - p.2 > apiCooldown)

/-- `markApiCallAttempt`: records the current timestamp for the coin id. -/
def CryptoCache.markApiCallAttempt (c : CryptoCache) (now : Nat) (coinId : String) :
    CryptoCache :=
  { c with apiCallAttempts := (jsToLower coinId, now) :: c.apiCallAttempts }

/-- `clearExpired`: drops entries strictly older than the expiry. -/
def CryptoCache.clearExpired (c : CryptoCache) (now : Nat) : CryptoCache :=
  { c with apiCache := c.apiCache.filter (fun p => decide (now - p.2.timestamp ≤ cacheExpiry)) }

/-- The hand-maintained local image table `localImageMap` (lines 249-282),
keyed by symbol or id. -/
def localImageMap : List (String × String) :=
  [("btc", "/src/images/crypto/bitcoin.png"),
   ("eth", "/src/images/crypto/ethereum.png"),
   ("sol", "/src/images/crypto/solana.png"),
   ("usdc", "/src/images/crypto/usdc.png"),
   ("usdt", "/src/images/crypto/tether.png"),
   ("bnb", "/src/images/crypto/binance.png"),
   ("xrp", "/src/images/crypto/xrp.png"),
   ("ada", "/src/images/crypto/cardano.png"),
   ("doge", "/src/images/crypto/dogecoin.png"),
   ("dot", "/src/images/crypto/polkadot.png"),
   ("link", "/src/images/crypto/chainlink.png"),
   ("avax", "/src/images/crypto/avalanche.png"),
   ("shib", "/src/images/crypto/shiba.png"),
   ("bitcoin", "/src/images/crypto/bitcoin.png"),
   ("ethereum", "/src/images/crypto/ethereum.png"),
   ("solana", "/src/images/crypto/solana.png"),
   ("usd-coin", "/src/images/crypto/usdc.png"),
   ("tether", "/src/images/crypto/tether.png"),
   ("binancecoin", "/src/images/crypto/binance.png"),
   ("ripple", "/src/images/crypto/xrp.png"),
   ("cardano", "/src/images/crypto/cardano.png"),
   ("dogecoin", "/src/images/crypto/dogecoin.png"),
   ("polkadot", "/src/images/crypto/polkadot.png"),
   ("chainlink", "/src/images/crypto/chainlink.png"),
   ("avalanche-2", "/src/images/crypto/avalanche.png"),
   ("shiba-inu", "/src/images/crypto/shiba.png"),
   ("wrapped-bitcoin", "/src/images/crypto/bitcoin.png"),
   ("staked-ether", "/src/images/crypto/ethereum.png"),
   ("wrapped-steth", "/src/images/crypto/ethereum.png")]

/-- The numeric-id CDN mapping `knownImageMapping` (lines 295-313). -/
def knownImageMapping : List (String × Nat × String) :=
  [("bitcoin", 1, "bitcoin"),
   ("ethereum", 279, "ethereum"),
   ("tether", 325, "tether"),
   ("binancecoin", 825, "binance-coin"),
   ("ripple", 44, "xrp"),
   ("solana", 16116, "solana"),
   ("cardano", 2010, "cardano"),
   ("staked-ether", 8085, "staked-ether"),
   ("dogecoin", 5, "dogecoin"),
   ("tron", 1958, "tron"),
   ("polkadot", 6636, "polkadot"),
   ("chainlink", 1975, "chainlink"),
   ("wrapped-bitcoin", 3717, "wrapped-bitcoin"),
   ("shiba-inu", 5994, "shiba-inu"),
   ("avalanche-2", 12559, "avalanche-2"),
   ("uniswap", 12504, "uniswap"),
   ("stellar", 512, "stellar")]

/-- The `problemCoins` skip list inside `tryFetchCoinData` (lines 346-347). -/
def problemCoins : List String :=
  ["fartcoin", "zerebro", "grass", "pepe", "official-trump", "dogwifcoin",
   "deep", "pi-network", "the-open-network", "leo-token", "mantra-dao",
   "zora", "sui", "ondo-finance"]

/-- One provider request issued by the client, for tracing purposes. -/
inductive ProviderCall where
  /-- A `GET /coins/markets` request to the primary provider. -/
  | primaryMarkets
  /-- A `GET /currencies` request to the secondary provider. -/
  | secondaryCurrencies
  /-- A per-coin detail request to the primary provider issued from the
  image-resolution path (`tryFetchCoinData`). -/
  | primaryCoinDetail (coinId : String)
  /-- A `GET /search` request to the primary provider. -/
  | primarySearch
deriving Repr, DecidableEq

/-- Result of `getCryptoImageUrl`: the URL returned to the caller, the updated
cache state, and the provider requests issued synchronously during the call. -/
structure ImageResult where
  url : String
  cache : CryptoCache
  requests : List ProviderCall
deriving Repr

/-- Synchronous behaviour of `getCryptoImageUrl(code)` (lines 229-460): empty
id short-circuits to the placeholder; then cached URL, the `godd` special
case, the local table, the known CDN mapping; otherwise the API branch runs
the synchronous prefix of `tryFetchCoinData` (skip-and-blacklist for problem
coins, or mark the attempt and issue the detail request) and the generic CDN
guess URL is cached and returned. -/
def getCryptoImageUrl (c : CryptoCache) (now : Nat) (apiKey code : String) :
    ImageResult :=
  if code = "" then ⟨DEFAULT_PLACEHOLDER, c, []⟩
  else
    let coinId := jsToLower code
    match c.getImageUrl coinId with
    | some cachedUrl => ⟨cachedUrl, c, []⟩
    | none =>
      if coinId = "godd" then
        let url := "/src/images/main.png"
        ⟨url, c.setImageUrl coinId url, []⟩
      else
        match localImageMap.find? (fun p => decide (p.1 = coinId)) with
        | some p => ⟨p.2, c.setImageUrl coinId p.2, []⟩
        | none =>
          match knownImageMapping.find? (fun p => decide (p.1 = coinId)) with
          | some m =>
            let url := "https://assets.coingecko.com/coins/images/" ++
              Nat.repr m.2.1 ++ "/small/" ++ m.2.2 ++ ".png"
            ⟨url, c.setImageUrl coinId url, []⟩
          | none =>
            let step :=
              if apiKey ≠ "" ∧ c.shouldTryApiCall now coinId = true then
                if c.isRateLimited now = false then
                  if coinId ∈ problemCoins then
                    (c.addToBlacklist coinId, ([] : List ProviderCall))
                  else
                    (c.markApiCallAttempt now coinId,
                     [ProviderCall.primaryCoinDetail coinId])
                else (c, [])
              else (c, [])
            let url := "https://assets.coingecko.com/coins/images/1000/small/" ++
              coinId ++ ".png?1684385264"
            ⟨url, step.1.setImageUrl coinId url, step.2⟩

/-- Outcome of the asynchronous `fetch` inside `tryFetchCoinData`: either an
HTTP response (status, optional `x-ratelimit-reset` header, optional
`image.small` payload field) or a network-level rejection. -/
inductive FetchOutcome where
  | response (status : Nat) (resetHeader : Option String) (imageSmall : Option String)
  | networkError
deriving Repr

/-- Continuation of `tryFetchCoinData` after `await fetch` (lines 358-402):
429 sets the rate-limit gate from the reset header (falsy header gives the
60-second default); 400/404 blacklists the coin; any other non-2xx status
throws and is caught by the handler that blacklists; a 2xx response with an
`image.small` field caches it; a network error is caught and blacklists. -/
def imageFetchComplete (c : CryptoCache) (now : Nat) (coinId : String)
    (o : FetchOutcome) : CryptoCache :=
  match o with
  | .networkError => c.addToBlacklist coinId
  | .response status resetHeader imageSmall =>
    if status = 429 then
      let waitTime : Option Nat :=
        match resetHeader with
        | some s => if s ≠ "" then parseIntJS s else some 60
        | none => some 60
      c.setRateLimited now true waitTime
    else if status = 400 ∨ status = 404 then
      c.addToBlacklist coinId
    else if ¬ (200 ≤ status ∧ status ≤ 299) then
      c.addToBlacklist coinId
    else
      match imageSmall with
      | some url => c.setImageUrl coinId url
      | none => c

/-- Result of one provider HTTP attempt: a parsed payload, or a failure with
an optional HTTP status (`none` models a network error without a response). -/
inductive ProviderResult (α : Type) where
  | ok (data : α)
  | httpError (status : Option Nat)
deriving Repr

/-- Trace of a `fetchWithRetry` call: the final outcome (payload or the status
of the error finally thrown), the number of HTTP attempts made, and the list
of backoff delays (ms) slept between attempts. -/
structure RetryTrace (α : Type) where
  outcome : Except (Option Nat) α
  attempts : Nat
  delays : List Nat
deriving Repr

/-- `fetchWithRetry` (lines 564-595): one attempt per call; a 429 failure with
`retries < MAX_RETRIES` sleeps `API_BACKOFF_MS` and recurses with
`retries + 1`; every other failure is rethrown at once.  The attempt for
recursion level `retries` is supplied by `resp retries`. -/
def fetchWithRetry {α : Type} (resp : Nat → ProviderResult α) (retries : Nat) :
    RetryTrace α :=
  match resp retries with
  | .ok a => ⟨.ok a, 1, []⟩
  | .httpError st =>
    if st = some 429 then
      if h : retries < MAX_RETRIES then
        let t := fetchWithRetry resp (retries + 1)
        ⟨t.outcome, t.attempts + 1, API_BACKOFF_MS :: t.delays⟩
      else ⟨.error st, 1, []⟩
    else ⟨.error st, 1, []⟩
termination_by MAX_RETRIES + 1 - retries
decreasing_by omega

/-- The cache key `top_coins_${currency}_${limit}` of `fetchTopCoins`. -/
def topCoinsKey (currency : String) (limit : Nat) : String :=
  "top_coins_" ++ currency ++ "_" ++ Nat.repr limit

/-- The `data.map(...)` body of the primary-provider branch of `fetchTopCoins`
(lines 626-638): maps each market row to a `CoinData`, resolving the image via
`getCryptoImageUrl` (which threads the cache and may issue detail requests). -/
def mapGeckoCoins (c : CryptoCache) (now : Nat) (apiKey : String) :
    List CoinGeckoMarketData → List CoinData × CryptoCache × List ProviderCall
  | [] => ([], c, [])
  | coin :: rest =>
    let r := getCryptoImageUrl c now apiKey coin.id
    let m := mapGeckoCoins r.cache now apiKey rest
    ({ id := coin.id, symbol := coin.symbol, name := coin.name, image := r.url,
       current_price := coin.current_price,
       price_change_percentage_24h := coin.price_change_percentage_24h,
       market_cap := coin.market_cap, market_cap_rank := coin.market_cap_rank,
       total_volume := coin.total_volume, high_24h := coin.high_24h,
       low_24h := coin.low_24h } :: m.1,
     m.2.1, r.requests ++ m.2.2)

/-- The `response.data.map(...)` body of the secondary-provider branch of
`fetchTopCoins` (lines 660-670): missing numeric fields default to zero
(`|| 0`), and the optional 24h high/low are not set. -/
def mapMoonPayCoins (c : CryptoCache) (now : Nat) (apiKey : String) :
    List MoonPayCurrency → List CoinData × CryptoCache × List ProviderCall
  | [] => ([], c, [])
  | coin :: rest =>
    let r := getCryptoImageUrl c now apiKey coin.code
    let m := mapMoonPayCoins r.cache now apiKey rest
    ({ id := coin.code, symbol := coin.code, name := coin.name, image := r.url,
       current_price := coin.price.getD 0,
       price_change_percentage_24h := coin.change24Hour.getD 0,
       market_cap := coin.marketCap.getD 0,
       market_cap_rank := coin.rank.getD 0,
       total_volume := coin.volume24Hour.getD 0,
       high_24h := none, low_24h := none } :: m.1,
     m.2.1, r.requests ++ m.2.2)

/-- `getFallbackCoins` (lines 830-898): the fixed built-in five-asset list,
with the image of each asset resolved through `getCryptoImageUrl` in source
order (threading the cache state like the JS array literal evaluation does). -/
def getFallbackCoins (c : CryptoCache) (now : Nat) (apiKey : String) :
    List CoinData × CryptoCache × List ProviderCall :=
  let r1 := getCryptoImageUrl c now apiKey "bitcoin"
  let r2 := getCryptoImageUrl r1.cache now apiKey "ethereum"
  let r3 := getCryptoImageUrl r2.cache now apiKey "solana"
  let r4 := getCryptoImageUrl r3.cache now apiKey "cardano"
  let r5 := getCryptoImageUrl r4.cache now apiKey "godsdollar"
  ([{ id := "bitcoin", symbol := "btc", name := "Bitcoin", image := r1.url,
      current_price := 57832.45, price_change_percentage_24h := 2.34,
      market_cap := 1134578945623, market_cap_rank := 1,
      total_volume := 32456789012, high_24h := some 58950.25,
      low_24h := some 56784.12 },
    { id := "ethereum", symbol := "eth", name := "Ethereum", image := r2.url,
      current_price := 2947.83, price_change_percentage_24h := 1.56,
      market_cap := 354789012345, market_cap_rank := 2,
      total_volume := 15678901234, high_24h := some 3025.75,
      low_24h := some 2895.62 },
    { id := "solana", symbol := "sol", name := "Solana", image := r3.url,
      current_price := 143.56, price_change_percentage_24h := 3.45,
      market_cap := 56789012345, market_cap_rank := 4,
      total_volume := 4567890123, high_24h := some 148.92,
      low_24h := some 139.45 },
    { id := "cardano", symbol := "ada", name := "Cardano", image := r4.url,
      current_price := 0.48, price_change_percentage_24h := -1.23,
      market_cap := 16789012345, market_cap_rank := 5,
      total_volume := 789012345, high_24h := some 0.51,
      low_24h := some 0.47 },
    { id := "godsdollar", symbol := "godd", name := "Gods Dollar", image := r5.url,
      current_price := 2.75, price_change_percentage_24h := 5.67,
      market_cap := 12345678901, market_cap_rank := 6,
      total_volume := 123456789, high_24h := some 2.91,
      low_24h := some 2.65 }],
   r5.cache,
   r1.requests ++ r2.requests ++ r3.requests ++ r4.requests ++ r5.requests)

/-- `fetchTopCoins(currency, limit)` (lines 598-680): cache hit returns the
cached payload with no provider request; otherwise the primary provider is
tried through `fetchWithRetry`; on its failure the secondary provider is
tried; the outer catch absorbs total failure into `getFallbackCoins`.
Returns the payload, the final cache state, and the request trace. -/
def fetchTopCoins (c : CryptoCache) (now : Nat) (apiKey : String)
    (primary : Nat → ProviderResult (List CoinGeckoMarketData))
    (secondary : ProviderResult (List MoonPayCurrency))
    (currency : String) (limit : Nat) :
    List CoinData × CryptoCache × List ProviderCall :=
  let cacheKey := topCoinsKey currency limit
  match c.getApiData now cacheKey with
  | some cachedData => (cachedData, c, [])
  | none =>
    let tr := fetchWithRetry primary 0
    let ptrace := List.replicate tr.attempts ProviderCall.primaryMarkets
    match tr.outcome with
    | .ok data =>
      let m := mapGeckoCoins c now apiKey data
      (m.1, (m.2.1).setApiData now cacheKey m.1, ptrace ++ m.2.2)
    | .error _ =>
      match secondary with
      | .ok mdata =>
        let m := mapMoonPayCoins c now apiKey mdata
        (m.1, (m.2.1).setApiData now cacheKey m.1,
         ptrace ++ ProviderCall.secondaryCurrencies :: m.2.2)
      | .httpError _ =>
        let m := getFallbackCoins c now apiKey
        (m.1, m.2.1, ptrace ++ ProviderCall.secondaryCurrencies :: m.2.2)

/-- The `.map(...)` over the first 15 search rows in `searchCryptocurrencies`
(lines 965-969): thumb and small are replaced by the resolved image URL. -/
def mapSearchItems (c : CryptoCache) (now : Nat) (apiKey : String) :
    List SearchResultItem → List SearchResultItem × CryptoCache × List ProviderCall
  | [] => ([], c, [])
  | coin :: rest =>
    let r := getCryptoImageUrl c now apiKey coin.id
    let m := mapSearchItems r.cache now apiKey rest
    ({ coin with thumb := some r.url, small := some r.url } :: m.1,
     m.2.1, r.requests ++ m.2.2)

/-- `searchCryptocurrencies(query)` (lines 950-977): an empty or
whitespace-only query returns `[]` synchronously with no request; a response
with a `coins` field is capped at 15 rows; a response without the field, or
any thrown error, yields `[]`.  The oracle payload `some rows` models
`response.data.coins` present, `none` models it absent. -/
def searchCryptocurrencies (c : CryptoCache) (now : Nat) (apiKey : String)
    (oracle : ProviderResult (Option (List SearchResultItem))) (query : String) :
    List SearchResultItem × CryptoCache × List ProviderCall :=
  if query = "" ∨ jsTrim query = "" then ([], c, [])
  else
    match oracle with
    | .ok (some coins) =>
      let m := mapSearchItems c now apiKey (coins.take 15)
      (m.1, m.2.1, ProviderCall.primarySearch :: m.2.2)
    | .ok none => ([], c, [ProviderCall.primarySearch])
    | .httpError _ => ([], c, [ProviderCall.primarySearch])

/-- Embedding of ECMAScript `Number.prototype.toFixed(f)` on rationals: the
sign is taken from the argument, the magnitude is rounded to the nearest
multiple of `10^-f` (ties toward the larger integer, per the spec's "pick the
larger n"), and the fraction part is zero-padded to `f` digits. -/
def jsToFixed (q : ℚ) (f : Nat) : String :=
  let sign := if q < 0 then "-" else ""
  let x : ℚ := |q|
  let n : Nat := (Int.floor (x * (10 : ℚ) ^ f + 1/2)).toNat
  if f = 0 then sign ++ Nat.repr n
  else
    let frac := Nat.repr (n % 10 ^ f)
    sign ++ Nat.repr (n / 10 ^ f) ++ "." ++
      String.mk (List.replicate (f - frac.length) '0') ++ frac

/-- Grouping step of the thousands-separator regex
`replace(/\B(?=(\d{3})+(?!\d))/g, ',')` on a reversed digit list: a comma
after every third digit from the right, never at the front. -/
def commaGroupsRev : List Char → List Char
  | a :: b :: c :: d :: rest => a :: b :: c :: ',' :: commaGroupsRev (d :: rest)
  | l => l

/-- The thousands-separator insertion applied to `toFixed(0)` output. -/
def addThousandsCommas (s : String) : String :=
  String.mk ((commaGroupsRev s.data.reverse).reverse)

/-- `formatPrice` (lines 463-473) on a non-null numeric price: at or above
1000 no decimals and thousands separators, at or above 1 two decimals,
otherwise six decimals; always prefixed with `$`. -/
def formatPrice (price : ℚ) : String :=
  if price ≥ 1000 then "$" ++ addThousandsCommas (jsToFixed price 0)
  else if price ≥ 1 then "$" ++ jsToFixed price 2
  else "$" ++ jsToFixed price 6

/-- `formatPriceChange` (lines 476-481) on a non-null numeric change: a `+`
sign for non-negative values, two decimals, a trailing `%`. -/
def formatPriceChange (change : ℚ) : String :=
  let sign := if change ≥ 0 then "+" else ""
  sign ++ jsToFixed change 2 ++ "%"

/-- `formatCompactNumber` (lines 484-493) on a non-null number: scaled to
T/B/M/K with two decimals, else plain two decimals. -/
def formatCompactNumber (num : ℚ) : String :=
  if num ≥ 1000000000000 then jsToFixed (num / 1000000000000) 2 ++ "T"
  else if num ≥ 1000000000 then jsToFixed (num / 1000000000) 2 ++ "B"
  else if num ≥ 1000000 then jsToFixed (num / 1000000) 2 ++ "M"
  else if num ≥ 1000 then jsToFixed (num / 1000) 2 ++ "K"
  else jsToFixed num 2

/-- One state-mutating client operation of a page session, for stating
session-long invariants such as blacklist permanence. -/
inductive SessionOp where
  /-- A synchronous `getCryptoImageUrl` call. -/
  | imageResolve (now : Nat) (apiKey code : String)
  /-- Completion of an asynchronous `tryFetchCoinData` fetch. -/
  | imageComplete (now : Nat) (coinId : String) (o : FetchOutcome)
  /-- A `fetchTopCoins` call. -/
  | topCoins (now : Nat) (apiKey : String)
      (primary : Nat → ProviderResult (List CoinGeckoMarketData))
      (secondary : ProviderResult (List MoonPayCurrency))
      (currency : String) (limit : Nat)
  /-- A `searchCryptocurrencies` call. -/
  | search (now : Nat) (apiKey : String)
      (oracle : ProviderResult (Option (List SearchResultItem))) (query : String)
  /-- One tick of the periodic `clearExpired` sweep. -/
  | sweep (now : Nat)

/-- Effect of one session operation on the shared cache state. -/
def applyOp (c : CryptoCache) : SessionOp → CryptoCache
  | .imageResolve now apiKey code => (getCryptoImageUrl c now apiKey code).cache
  | .imageComplete now coinId o => imageFetchComplete c now coinId o
  | .topCoins now apiKey primary secondary currency limit =>
      (fetchTopCoins c now apiKey primary secondary currency limit).2.1
  | .search now apiKey oracle query =>
      (searchCryptocurrencies c now apiKey oracle query).2.1
  | .sweep now => c.clearExpired now

/-- Sequential effect of a list of session operations. -/
def applyOps (c : CryptoCache) : List SessionOp → CryptoCache
  | [] => c
  | op :: rest => applyOps (applyOp c op) rest

theorem fetchWithRetry_ok {α : Type} (resp : Nat → ProviderResult α) (k : Nat)
    (d : α) (h : resp k = .ok d) : fetchWithRetry resp k = ⟨.ok d, 1, []⟩ := by
  rw [fetchWithRetry, h]

theorem fetchWithRetry_non429 {α : Type} (resp : Nat → ProviderResult α) (k : Nat)
    (st : Option Nat) (h : resp k = .httpError st) (h429 : st ≠ some 429) :
    fetchWithRetry resp k = ⟨.error st, 1, []⟩ := by
  rw [fetchWithRetry, h]
  simp [h429]

theorem fetchWithRetry_all429 {α : Type} (resp : Nat → ProviderResult α)
    (h : ∀ n, resp n = .httpError (some 429)) :
    ∀ d k, MAX_RETRIES - k = d → k ≤ MAX_RETRIES →
      fetchWithRetry resp k =
        ⟨.error (some 429), MAX_RETRIES + 1 - k,
         List.replicate (MAX_RETRIES - k) API_BACKOFF_MS⟩ := by
  intro d
  induction d with
  | zero =>
    intro k hd hk
    have hnlt : ¬ k < MAX_RETRIES := by omega
    rw [fetchWithRetry, h k]
    simp only [if_pos rfl, dif_neg hnlt]
    have h1 : MAX_RETRIES + 1 - k = 1 := by omega
    rw [h1, hd]
    simp
  | succ d ih =>
    intro k hd hk
    have hklt : k < MAX_RETRIES := by omega
    rw [fetchWithRetry, h k]
    simp only [if_pos rfl, dif_pos hklt, ih (k + 1) (by omega) (by omega)]
    have h1 : MAX_RETRIES + 1 - (k + 1) + 1 = MAX_RETRIES + 1 - k := by omega
    have h2 : MAX_RETRIES - k = (MAX_RETRIES - (k + 1)) + 1 := by omega
    rw [h1, h2, List.replicate_succ]
    simp

theorem fetchWithRetry_err {α : Type} (resp : Nat → ProviderResult α)
    (h : ∀ n d, resp n ≠ .ok d) :
    ∀ d k, MAX_RETRIES - k = d → ∃ st, (fetchWithRetry resp k).outcome = .error st := by
  intro d
  induction d with
  | zero =>
    intro k hd
    rw [fetchWithRetry]
    cases hr : resp k with
    | ok a => exact absurd hr (h k a)
    | httpError st =>
      by_cases h429 : st = some 429
      · subst h429
        have hnlt : ¬ k < MAX_RETRIES := by omega
        simp [hnlt]
      · simp [h429]
  | succ d ih =>
    intro k hd
    rw [fetchWithRetry]
    cases hr : resp k with
    | ok a => exact absurd hr (h k a)
    | httpError st =>
      by_cases h429 : st = some 429
      · subst h429
        by_cases hklt : k < MAX_RETRIES
        · simpa [hklt] using ih (k + 1) (by omega)
        · simp [hklt]
      · simp [h429]

theorem fetchWithRetry_attempts_pos {α : Type} (resp : Nat → ProviderResult α)
    (k : Nat) : 1 ≤ (fetchWithRetry resp k).attempts := by
  rw [fetchWithRetry]
  cases hr : resp k with
  | ok a => simp
  | httpError st =>
    by_cases h429 : st = some 429
    · subst h429
      by_cases hklt : k < MAX_RETRIES
      · simp [hklt]
      · simp [hklt]
    · simp [h429]

theorem getImageUrl_setImageUrl_same (c : CryptoCache) (coinId url : String) :
    (c.setImageUrl coinId url).getImageUrl coinId = some url := by
  simp [CryptoCache.setImageUrl, CryptoCache.getImageUrl]

theorem shouldTryApiCall_rateLimited (c : CryptoCache) (now : Nat) (coinId : String)
    (h : c.isRateLimited now = true) : c.shouldTryApiCall now coinId = false := by
  simp [CryptoCache.shouldTryApiCall, h]

theorem getCryptoImageUrl_requests_rateLimited (c : CryptoCache) (now : Nat)
    (apiKey code : String) (h : c.isRateLimited now = true) :
    (getCryptoImageUrl c now apiKey code).requests = [] := by
  have hP : ¬ (apiKey ≠ "" ∧ c.shouldTryApiCall now (jsToLower code) = true) := by
    rintro ⟨-, h2⟩
    rw [shouldTryApiCall_rateLimited c now _ h] at h2
    exact Bool.false_ne_true h2
  rw [getCryptoImageUrl]
  split
  · rfl
  · dsimp only
    split
    · rfl
    · split
      · rfl
      · split
        · rfl
        · split
          · rfl
          · simp only [if_neg hP]

theorem shouldTryApiCall_blacklisted (c : CryptoCache) (now : Nat) (coinId : String)
    (h : c.isBlacklisted (jsToLower coinId) = true) :
    c.shouldTryApiCall now coinId = false := by
  simp [CryptoCache.shouldTryApiCall, h]

theorem getCryptoImageUrl_requests_blacklisted (c : CryptoCache) (now : Nat)
    (apiKey code : String) (h : c.isBlacklisted (jsToLower (jsToLower code)) = true) :
    (getCryptoImageUrl c now apiKey code).requests = [] := by
  have hP : ¬ (apiKey ≠ "" ∧ c.shouldTryApiCall now (jsToLower code) = true) := by
    rintro ⟨-, h2⟩
    rw [shouldTryApiCall_blacklisted c now _ h] at h2
    exact Bool.false_ne_true h2
  rw [getCryptoImageUrl]
  split
  · rfl
  · dsimp only
    split
    · rfl
    · split
      · rfl
      · split
        · rfl
        · split
          · rfl
          · simp only [if_neg hP]

theorem getCryptoImageUrl_cache_getImageUrl (c : CryptoCache) (now : Nat)
    (apiKey code : String) (hne : code ≠ "") :
    (getCryptoImageUrl c now apiKey code).cache.getImageUrl (jsToLower code) =
      some (getCryptoImageUrl c now apiKey code).url := by
  rw [getCryptoImageUrl, if_neg hne]
  dsimp only
  cases hlook : CryptoCache.getImageUrl c (jsToLower code) with
  | some u => simp only [hlook]
  | none =>
    simp only [hlook]
    by_cases hg : jsToLower code = "godd"
    · simp only [if_pos hg]
      exact getImageUrl_setImageUrl_same _ _ _
    · simp only [if_neg hg]
      cases hl : List.find? (fun p => decide (p.1 = jsToLower code)) localImageMap with
      | some p => simp only [hl]; exact getImageUrl_setImageUrl_same _ _ _
      | none =>
        simp only [hl]
        cases hk : List.find? (fun p => decide (p.1 = jsToLower code)) knownImageMapping with
        | some m => simp only [hk]; exact getImageUrl_setImageUrl_same _ _ _
        | none => simp only [hk]; exact getImageUrl_setImageUrl_same _ _ _

theorem blacklist_setImageUrl (c : CryptoCache) (coinId url : String) :
    (c.setImageUrl coinId url).coinBlacklist = c.coinBlacklist := rfl

theorem blacklist_getCryptoImageUrl (c : CryptoCache) (now : Nat)
    (apiKey code : String) :
    c.coinBlacklist ⊆ (getCryptoImageUrl c now apiKey code).cache.coinBlacklist := by
  rw [getCryptoImageUrl]
  split
  · exact fun x hx => hx
  · dsimp only
    split
    · exact fun x hx => hx
    · split
      · exact fun x hx => hx
      · split
        · exact fun x hx => hx
        · split
          · exact fun x hx => hx
          · dsimp only
            split
            · split
              · split
                · exact fun x hx => List.mem_cons_of_mem _ hx
                · exact fun x hx => hx
              · exact fun x hx => hx
            · exact fun x hx => hx

theorem apiCache_getCryptoImageUrl (c : CryptoCache) (now : Nat)
    (apiKey code : String) :
    (getCryptoImageUrl c now apiKey code).cache.apiCache = c.apiCache := by
  rw [getCryptoImageUrl]
  split
  · rfl
  · dsimp only
    split
    · rfl
    · split
      · rfl
      · split
        · rfl
        · split
          · rfl
          · dsimp only
            split
            · split
              · split <;> rfl
              · rfl
            · rfl

theorem requests_getCryptoImageUrl (c : CryptoCache) (now : Nat)
    (apiKey code : String) :
    ∀ x ∈ (getCryptoImageUrl c now apiKey code).requests,
      ∃ id, x = ProviderCall.primaryCoinDetail id := by
  rw [getCryptoImageUrl]
  split
  · intro x hx; exact absurd hx (List.not_mem_nil x)
  · dsimp only
    split
    · intro x hx; exact absurd hx (List.not_mem_nil x)
    · split
      · intro x hx; exact absurd hx (List.not_mem_nil x)
      · split
        · intro x hx; exact absurd hx (List.not_mem_nil x)
        · split
          · intro x hx; exact absurd hx (List.not_mem_nil x)
          · dsimp only
            split
            · split
              · split
                · intro x hx; exact absurd hx (List.not_mem_nil x)
                · intro x hx
                  rw [List.mem_singleton] at hx
                  exact ⟨_, hx⟩
              · intro x hx; exact absurd hx (List.not_mem_nil x)
            · intro x hx; exact absurd hx (List.not_mem_nil x)

theorem blacklist_mapGeckoCoins (now : Nat) (apiKey : String) :
    ∀ (l : List CoinGeckoMarketData) (c : CryptoCache),
      c.coinBlacklist ⊆ (mapGeckoCoins c now apiKey l).2.1.coinBlacklist := by
  intro l
  induction l with
  | nil => intro c; exact fun x hx => hx
  | cons coin rest ih =>
    intro c
    rw [mapGeckoCoins]
    exact fun x hx =>
      ih (getCryptoImageUrl c now apiKey coin.id).cache
        (blacklist_getCryptoImageUrl c now apiKey coin.id hx)

theorem blacklist_mapMoonPayCoins (now : Nat) (apiKey : String) :
    ∀ (l : List MoonPayCurrency) (c : CryptoCache),
      c.coinBlacklist ⊆ (mapMoonPayCoins c now apiKey l).2.1.coinBlacklist := by
  intro l
  induction l with
  | nil => intro c; exact fun x hx => hx
  | cons coin rest ih =>
    intro c
    rw [mapMoonPayCoins]
    exact fun x hx =>
      ih (getCryptoImageUrl c now apiKey coin.code).cache
        (blacklist_getCryptoImageUrl c now apiKey coin.code hx)

theorem blacklist_mapSearchItems (now : Nat) (apiKey : String) :
    ∀ (l : List SearchResultItem) (c : CryptoCache),
      c.coinBlacklist ⊆ (mapSearchItems c now apiKey l).2.1.coinBlacklist := by
  intro l
  induction l with
  | nil => intro c; exact fun x hx => hx
  | cons coin rest ih =>
    intro c
    rw [mapSearchItems]
    exact fun x hx =>
      ih (getCryptoImageUrl c now apiKey coin.id).cache
        (blacklist_getCryptoImageUrl c now apiKey coin.id hx)

theorem blacklist_getFallbackCoins (c : CryptoCache) (now : Nat) (apiKey : String) :
    c.coinBlacklist ⊆ (getFallbackCoins c now apiKey).2.1.coinBlacklist := by
  rw [getFallbackCoins]
  intro x hx
  exact blacklist_getCryptoImageUrl _ now apiKey "godsdollar"
    (blacklist_getCryptoImageUrl _ now apiKey "cardano"
      (blacklist_getCryptoImageUrl _ now apiKey "solana"
        (blacklist_getCryptoImageUrl _ now apiKey "ethereum"
          (blacklist_getCryptoImageUrl _ now apiKey "bitcoin" hx))))

theorem blacklist_fetchTopCoins (c : CryptoCache) (now : Nat) (apiKey : String)
    (primary : Nat → ProviderResult (List CoinGeckoMarketData))
    (secondary : ProviderResult (List MoonPayCurrency))
    (currency : String) (limit : Nat) :
    c.coinBlacklist ⊆
      (fetchTopCoins c now apiKey primary secondary currency limit).2.1.coinBlacklist := by
  rw [fetchTopCoins]
  split
  · exact fun x hx => hx
  · dsimp only
    split
    · exact fun x hx => blacklist_mapGeckoCoins now apiKey _ c hx
    · split
      · exact fun x hx => blacklist_mapMoonPayCoins now apiKey _ c hx
      · exact fun x hx => blacklist_getFallbackCoins c now apiKey hx

theorem blacklist_searchCryptocurrencies (c : CryptoCache) (now : Nat)
    (apiKey : String) (oracle : ProviderResult (Option (List SearchResultItem)))
    (query : String) :
    c.coinBlacklist ⊆
      (searchCryptocurrencies c now apiKey oracle query).2.1.coinBlacklist := by
  rw [searchCryptocurrencies.eq_def]
  split
  · exact fun x hx => hx
  · split
    · exact fun x hx => blacklist_mapSearchItems now apiKey _ c hx
    · exact fun x hx => hx
    · exact fun x hx => hx

theorem blacklist_imageFetchComplete (c : CryptoCache) (now : Nat)
    (coinId : String) (o : FetchOutcome) :
    c.coinBlacklist ⊆ (imageFetchComplete c now coinId o).coinBlacklist := by
  rw [imageFetchComplete.eq_def]
  cases o with
  | networkError => exact List.subset_cons_self _ _
  | response status resetHeader imageSmall =>
    dsimp only
    split
    · simp only [CryptoCache.setRateLimited, if_pos rfl]
      exact fun x hx => hx
    · split
      · exact List.subset_cons_self _ _
      · split
        · exact List.subset_cons_self _ _
        · split
          · exact fun x hx => hx
          · exact fun x hx => hx

theorem blacklist_applyOp (c : CryptoCache) (op : SessionOp) :
    c.coinBlacklist ⊆ (applyOp c op).coinBlacklist := by
  cases op with
  | imageResolve now apiKey code => exact blacklist_getCryptoImageUrl c now apiKey code
  | imageComplete now coinId o => exact blacklist_imageFetchComplete c now coinId o
  | topCoins now apiKey primary secondary currency limit =>
    exact blacklist_fetchTopCoins c now apiKey primary secondary currency limit
  | search now apiKey oracle query =>
    exact blacklist_searchCryptocurrencies c now apiKey oracle query
  | sweep now => exact fun x hx => hx

theorem blacklist_applyOps :
    ∀ (ops : List SessionOp) (c : CryptoCache),
      c.coinBlacklist ⊆ (applyOps c ops).coinBlacklist := by
  intro ops
  induction ops with
  | nil => intro c; exact fun x hx => hx
  | cons op rest ih =>
    intro c
    rw [applyOps]
    exact fun x hx => ih (applyOp c op) (blacklist_applyOp c op hx)

theorem getApiData_setApiData_same (c : CryptoCache) (t now : Nat) (key : String)
    (data : List CoinData) :
    (c.setApiData t key data).getApiData now key =
      if now - t < cacheExpiry then some data else none := by
  simp [CryptoCache.setApiData, CryptoCache.getApiData]

theorem apiCache_mapGeckoCoins (now : Nat) (apiKey : String) :
    ∀ (l : List CoinGeckoMarketData) (c : CryptoCache),
      (mapGeckoCoins c now apiKey l).2.1.apiCache = c.apiCache := by
  intro l
  induction l with
  | nil => intro c; rfl
  | cons coin rest ih =>
    intro c
    rw [mapGeckoCoins]
    rw [ih, apiCache_getCryptoImageUrl]

theorem requests_mapGeckoCoins (now : Nat) (apiKey : String) :
    ∀ (l : List CoinGeckoMarketData) (c : CryptoCache),
      ∀ x ∈ (mapGeckoCoins c now apiKey l).2.2,
        ∃ id, x = ProviderCall.primaryCoinDetail id := by
  intro l
  induction l with
  | nil => intro c x hx; exact absurd hx (List.not_mem_nil x)
  | cons coin rest ih =>
    intro c x hx
    rw [mapGeckoCoins] at hx
    rcases List.mem_append.mp hx with h | h
    · exact requests_getCryptoImageUrl c now apiKey coin.id x h
    · exact ih _ x h

theorem requests_mapMoonPayCoins (now : Nat) (apiKey : String) :
    ∀ (l : List MoonPayCurrency) (c : CryptoCache),
      ∀ x ∈ (mapMoonPayCoins c now apiKey l).2.2,
        ∃ id, x = ProviderCall.primaryCoinDetail id := by
  intro l
  induction l with
  | nil => intro c x hx; exact absurd hx (List.not_mem_nil x)
  | cons coin rest ih =>
    intro c x hx
    rw [mapMoonPayCoins] at hx
    rcases List.mem_append.mp hx with h | h
    · exact requests_getCryptoImageUrl c now apiKey coin.code x h
    · exact ih _ x h

theorem requests_getFallbackCoins (c : CryptoCache) (now : Nat) (apiKey : String) :
    ∀ x ∈ (getFallbackCoins c now apiKey).2.2,
      ∃ id, x = ProviderCall.primaryCoinDetail id := by
  rw [getFallbackCoins]
  intro x hx
  simp only [List.mem_append] at hx
  rcases hx with (((h | h) | h) | h) | h
  · exact requests_getCryptoImageUrl _ now apiKey _ x h
  · exact requests_getCryptoImageUrl _ now apiKey _ x h
  · exact requests_getCryptoImageUrl _ now apiKey _ x h
  · exact requests_getCryptoImageUrl _ now apiKey _ x h
  · exact requests_getCryptoImageUrl _ now apiKey _ x h

theorem getFallbackCoins_fields (c : CryptoCache) (now : Nat) (apiKey : String) :
    ((getFallbackCoins c now apiKey).1).map
        (fun cd => (cd.id, cd.symbol, cd.name, cd.current_price)) =
      [("bitcoin", "btc", "Bitcoin", (57832.45 : ℚ)),
       ("ethereum", "eth", "Ethereum", (2947.83 : ℚ)),
       ("solana", "sol", "Solana", (143.56 : ℚ)),
       ("cardano", "ada", "Cardano", (0.48 : ℚ)),
       ("godsdollar", "godd", "Gods Dollar", (2.75 : ℚ))] := by
  rw [getFallbackCoins]
  simp

theorem length_mapSearchItems (now : Nat) (apiKey : String) :
    ∀ (l : List SearchResultItem) (c : CryptoCache),
      (mapSearchItems c now apiKey l).1.length = l.length := by
  intro l
  induction l with
  | nil => intro c; rfl
  | cons coin rest ih =>
    intro c
    rw [mapSearchItems]
    simp [ih]

theorem jsToLower_eq_empty_iff (s : String) : jsToLower s = "" ↔ s = "" := by
  cases s with
  | mk data =>
    constructor
    · intro h
      have h2 : List.map jsCharToLower data = [] := congrArg String.data h
      have h3 : data = [] := List.map_eq_nil_iff.mp h2
      rw [h3]
    · intro h
      rw [h]
      rfl

theorem primaryMarkets_mem_fetchTopCoins (c : CryptoCache) (now : Nat)
    (apiKey : String) (primary : Nat → ProviderResult (List CoinGeckoMarketData))
    (secondary : ProviderResult (List MoonPayCurrency))
    (currency : String) (limit : Nat)
    (hmiss : c.getApiData now (topCoinsKey currency limit) = none) :
    ProviderCall.primaryMarkets ∈
      (fetchTopCoins c now apiKey primary secondary currency limit).2.2 := by
  rw [fetchTopCoins]
  simp only [hmiss]
  have hpos := fetchWithRetry_attempts_pos primary 0
  have hmem : ProviderCall.primaryMarkets ∈
      List.replicate (fetchWithRetry primary 0).attempts ProviderCall.primaryMarkets :=
    List.mem_replicate.mpr ⟨by omega, rfl⟩
  cases houtcome : (fetchWithRetry primary 0).outcome with
  | ok data =>
    simp only [houtcome]
    exact List.mem_append_left _ hmem
  | error st =>
    simp only [houtcome]
    cases secondary with
    | ok mdata => exact List.mem_append_left _ hmem
    | httpError st2 => exact List.mem_append_left _ hmem

theorem secondaryCurrencies_mem_fetchTopCoins (c : CryptoCache) (now : Nat)
    (apiKey : String) (primary : Nat → ProviderResult (List CoinGeckoMarketData))
    (secondary : ProviderResult (List MoonPayCurrency))
    (currency : String) (limit : Nat)
    (hmiss : c.getApiData now (topCoinsKey currency limit) = none)
    (hp : ∀ n d, primary n ≠ .ok d) :
    ProviderCall.secondaryCurrencies ∈
      (fetchTopCoins c now apiKey primary secondary currency limit).2.2 := by
  rw [fetchTopCoins]
  simp only [hmiss]
  obtain ⟨st, hst⟩ := fetchWithRetry_err primary hp (MAX_RETRIES - 0) 0 rfl
  simp only [hst]
  cases secondary with
  | ok mdata => exact List.mem_append_right _ (List.mem_cons_self _ _)
  | httpError st2 => exact List.mem_append_right _ (List.mem_cons_self _ _)

/-- C1: when both the primary (CoinGecko) and the secondary (MoonPay) provider
fail, `fetchTopCoins('usd', 5)` returns exactly the fixed built-in fallback
list of 5 assets in the order bitcoin, ethereum, solana, cardano, godsdollar —
never an empty list; the embedding's total return type reflects that the outer
catch absorbs every failure instead of rethrowing to the caller. -/
theorem spec_C1 (c : CryptoCache) (now : Nat) (apiKey : String)
    (primary : Nat → ProviderResult (List CoinGeckoMarketData))
    (secondary : ProviderResult (List MoonPayCurrency))
    (hmiss : c.getApiData now (topCoinsKey "usd" 5) = none)
    (hp : ∀ n d, primary n ≠ .ok d)
    (hs : ∀ d, secondary ≠ .ok d) :
    (fetchTopCoins c now apiKey primary secondary "usd" 5).1.map
        (fun cd => (cd.id, cd.symbol, cd.name, cd.current_price)) =
      [("bitcoin", "btc", "Bitcoin", (57832.45 : ℚ)),
       ("ethereum", "eth", "Ethereum", (2947.83 : ℚ)),
       ("solana", "sol", "Solana", (143.56 : ℚ)),
       ("cardano", "ada", "Cardano", (0.48 : ℚ)),
       ("godsdollar", "godd", "Gods Dollar", (2.75 : ℚ))] ∧
    (fetchTopCoins c now apiKey primary secondary "usd" 5).1.length = 5 ∧
    (fetchTopCoins c now apiKey primary secondary "usd" 5).1 ≠ [] := by
  have hres : (fetchTopCoins c now apiKey primary secondary "usd" 5).1 =
      (getFallbackCoins c now apiKey).1 := by
    rw [fetchTopCoins]
    simp only [hmiss]
    obtain ⟨st, hst⟩ := fetchWithRetry_err primary hp (MAX_RETRIES - 0) 0 rfl
    simp only [hst]
    cases secondary with
    | ok mdata => exact absurd rfl (hs mdata)
    | httpError st2 => rfl
  rw [hres]
  refine ⟨getFallbackCoins_fields c now apiKey, ?_, ?_⟩
  · rw [getFallbackCoins]
    simp
  · rw [getFallbackCoins]
    simp

/-- Witness for C1 at a concrete failing pair of providers and a fresh cache. -/
theorem spec_C1_witness :
    (fetchTopCoins CryptoCache.init 0 ""
        (fun _ => ProviderResult.httpError (some 500))
        (ProviderResult.httpError none) "usd" 5).1.map
        (fun cd => (cd.id, cd.symbol, cd.name, cd.current_price)) =
      [("bitcoin", "btc", "Bitcoin", (57832.45 : ℚ)),
       ("ethereum", "eth", "Ethereum", (2947.83 : ℚ)),
       ("solana", "sol", "Solana", (143.56 : ℚ)),
       ("cardano", "ada", "Cardano", (0.48 : ℚ)),
       ("godsdollar", "godd", "Gods Dollar", (2.75 : ℚ))] :=
  (spec_C1 CryptoCache.init 0 "" _ _ rfl (by intro n d h; simp at h)
    (by intro d h; simp at h)).1

/-- C2: after a successful fetch stored at time `t0`, a repeated
`fetchTopCoins` call with the same `(currency, limit)` within 5 minutes
returns the identical cached payload, leaves the state unchanged and issues no
provider request; once the entry is at least 5 minutes old it reads as absent
and the repeated call falls through to a fresh primary fetch. -/
theorem spec_C2 (c : CryptoCache) (t0 : Nat) (apiKey : String)
    (primary : Nat → ProviderResult (List CoinGeckoMarketData))
    (secondary : ProviderResult (List MoonPayCurrency))
    (currency : String) (limit : Nat) (data : List CoinGeckoMarketData)
    (hmiss : c.getApiData t0 (topCoinsKey currency limit) = none)
    (hsucc : primary 0 = .ok data) :
    ∀ (now2 : Nat) (apiKey2 : String)
      (primary2 : Nat → ProviderResult (List CoinGeckoMarketData))
      (secondary2 : ProviderResult (List MoonPayCurrency)),
      (now2 - t0 < cacheExpiry →
        fetchTopCoins (fetchTopCoins c t0 apiKey primary secondary currency limit).2.1
            now2 apiKey2 primary2 secondary2 currency limit =
          ((fetchTopCoins c t0 apiKey primary secondary currency limit).1,
           (fetchTopCoins c t0 apiKey primary secondary currency limit).2.1, [])) ∧
      (cacheExpiry ≤ now2 - t0 →
        (fetchTopCoins c t0 apiKey primary secondary currency limit).2.1.getApiData
            now2 (topCoinsKey currency limit) = none ∧
        ProviderCall.primaryMarkets ∈
          (fetchTopCoins (fetchTopCoins c t0 apiKey primary secondary currency limit).2.1
            now2 apiKey2 primary2 secondary2 currency limit).2.2) := by
  intro now2 apiKey2 primary2 secondary2
  have hr1 : fetchTopCoins c t0 apiKey primary secondary currency limit =
      ((mapGeckoCoins c t0 apiKey data).1,
       (mapGeckoCoins c t0 apiKey data).2.1.setApiData t0 (topCoinsKey currency limit)
         (mapGeckoCoins c t0 apiKey data).1,
       List.replicate 1 ProviderCall.primaryMarkets ++
         (mapGeckoCoins c t0 apiKey data).2.2) := by
    rw [fetchTopCoins]
    simp only [hmiss, fetchWithRetry_ok primary 0 data hsucc]
  have hget : ∀ n, ((fetchTopCoins c t0 apiKey primary secondary currency limit).2.1).getApiData
      n (topCoinsKey currency limit) =
      if n - t0 < cacheExpiry then some (mapGeckoCoins c t0 apiKey data).1 else none := by
    intro n
    rw [hr1]
    exact getApiData_setApiData_same _ t0 n _ _
  constructor
  · intro hfresh
    rw [fetchTopCoins.eq_def]
    dsimp only
    rw [hget now2, if_pos hfresh]
    dsimp only
    rw [hr1]
  · intro hstale
    have hnone : ((fetchTopCoins c t0 apiKey primary secondary currency limit).2.1).getApiData
        now2 (topCoinsKey currency limit) = none := by
      rw [hget now2, if_neg (by omega)]
    exact ⟨hnone, primaryMarkets_mem_fetchTopCoins _ now2 apiKey2 primary2 secondary2
      currency limit hnone⟩

/-- Witness for C2 at a concrete successful fetch and a repeat 1 ms later. -/
theorem spec_C2_witness :
    fetchTopCoins (fetchTopCoins CryptoCache.init 0 ""
        (fun _ => ProviderResult.ok []) (ProviderResult.httpError none) "usd" 5).2.1
      1 "" (fun _ => ProviderResult.ok []) (ProviderResult.httpError none) "usd" 5 =
      ((fetchTopCoins CryptoCache.init 0 "" (fun _ => ProviderResult.ok [])
          (ProviderResult.httpError none) "usd" 5).1,
       (fetchTopCoins CryptoCache.init 0 "" (fun _ => ProviderResult.ok [])
          (ProviderResult.httpError none) "usd" 5).2.1, []) :=
  (spec_C2 CryptoCache.init 0 "" (fun _ => ProviderResult.ok [])
    (ProviderResult.httpError none) "usd" 5 [] rfl rfl 1 ""
    (fun _ => ProviderResult.ok []) (ProviderResult.httpError none)).1 (by decide)

/-- C3 counterexample: a persistent non-429 failure (HTTP 500) of the primary
provider is not retried at all — `fetchWithRetry` makes exactly one attempt
and sleeps no backoff delay, refuting the claim that non-429 transient
failures are retried up to 3 times with 2-second delays. -/
theorem spec_C3_counterexample :
    (fetchWithRetry (fun _ => ProviderResult.httpError (some 500)) 0 :
        RetryTrace (List CoinGeckoMarketData)).attempts = 1 ∧
    (fetchWithRetry (fun _ => ProviderResult.httpError (some 500)) 0 :
        RetryTrace (List CoinGeckoMarketData)).delays = [] := by
  rw [fetchWithRetry_non429 _ 0 (some 500) rfl (by simp)]
  exact ⟨rfl, rfl⟩

/-- C3 amended: only HTTP 429 failures of a primary-provider call are retried,
up to 3 times with a fixed 2000 ms delay between attempts (4 attempts in
total); any other failure is treated as failed after its single attempt, and
the secondary provider is then tried at once. -/
theorem spec_C3_amended (resp resp429 : Nat → ProviderResult (List CoinGeckoMarketData))
    (st : Option Nat) (h : resp 0 = .httpError st) (h429 : st ≠ some 429)
    (hall : ∀ n, resp429 n = .httpError (some 429))
    (c : CryptoCache) (now : Nat) (apiKey : String)
    (secondary : ProviderResult (List MoonPayCurrency))
    (hmiss : c.getApiData now (topCoinsKey "usd" 5) = none) :
    fetchWithRetry resp 0 = ⟨.error st, 1, []⟩ ∧
    fetchWithRetry resp429 0 =
      ⟨.error (some 429), 4, [API_BACKOFF_MS, API_BACKOFF_MS, API_BACKOFF_MS]⟩ ∧
    (∃ icalls, (fetchTopCoins c now apiKey resp secondary "usd" 5).2.2 =
        ProviderCall.primaryMarkets :: ProviderCall.secondaryCurrencies :: icalls ∧
      ∀ x ∈ icalls, ∃ id, x = ProviderCall.primaryCoinDetail id) := by
  refine ⟨fetchWithRetry_non429 resp 0 st h h429, ?_, ?_⟩
  · have hr := fetchWithRetry_all429 resp429 hall (MAX_RETRIES - 0) 0 rfl (by omega)
    rw [hr]
    norm_num [MAX_RETRIES, List.replicate]
  · rw [fetchTopCoins]
    simp only [hmiss, fetchWithRetry_non429 resp 0 st h h429]
    cases secondary with
    | ok mdata =>
      exact ⟨_, rfl, fun x hx => requests_mapMoonPayCoins now apiKey mdata c x hx⟩
    | httpError st2 =>
      exact ⟨_, rfl, fun x hx => requests_getFallbackCoins c now apiKey x hx⟩

/-- Witness for C3's amended statement at concrete oracles. -/
theorem spec_C3_amended_witness :
    (fetchWithRetry (fun _ => ProviderResult.httpError (some 503)) 0 :
        RetryTrace (List CoinGeckoMarketData)) = ⟨.error (some 503), 1, []⟩ ∧
    (fetchWithRetry (fun _ => ProviderResult.httpError (some 429)) 0 :
        RetryTrace (List CoinGeckoMarketData)) =
      ⟨.error (some 429), 4, [API_BACKOFF_MS, API_BACKOFF_MS, API_BACKOFF_MS]⟩ :=
  ⟨(spec_C3_amended (fun _ => ProviderResult.httpError (some 503))
      (fun _ => ProviderResult.httpError (some 429)) (some 503) rfl (by simp)
      (fun _ => rfl) CryptoCache.init 0 "" (ProviderResult.httpError none) rfl).1,
   (spec_C3_amended (fun _ => ProviderResult.httpError (some 503))
      (fun _ => ProviderResult.httpError (some 429)) (some 503) rfl (by simp)
      (fun _ => rfl) CryptoCache.init 0 "" (ProviderResult.httpError none) rfl).2.1⟩

/-- C4 counterexample: with the process-wide rate-limit gate active (current
time 0, gate deadline 1000000) and a cold cache, `fetchTopCoins` still issues
a request to the primary provider — the gate does not make any operation skip
the primary, refuting the claim. -/
theorem spec_C4_counterexample :
    ({ imageCache := [], apiCache := [], apiCallAttempts := [],
       rateLimitedUntil := 1000000, coinBlacklist := [] } : CryptoCache).isRateLimited
        0 = true ∧
    ProviderCall.primaryMarkets ∈
      (fetchTopCoins
        { imageCache := [], apiCache := [], apiCallAttempts := [],
          rateLimitedUntil := 1000000, coinBlacklist := [] } 0 ""
        (fun _ => ProviderResult.httpError (some 500)) (ProviderResult.httpError none)
        "usd" 5).2.2 := by
  constructor
  · decide
  · exact primaryMarkets_mem_fetchTopCoins _ 0 "" _ _ "usd" 5 rfl

/-- C4 amended: while the rate-limit gate is active it suppresses only the
image-resolution provider lookups — `getCryptoImageUrl` issues no provider
request — whereas `fetchTopCoins` does not consult the gate: on a cache miss
it still attempts the primary provider, and when the primary fails the
secondary provider is called immediately, gate or no gate. -/
theorem spec_C4_amended (c : CryptoCache) (now : Nat) (apiKey code : String)
    (primary : Nat → ProviderResult (List CoinGeckoMarketData))
    (secondary : ProviderResult (List MoonPayCurrency))
    (hgate : c.isRateLimited now = true)
    (hmiss : c.getApiData now (topCoinsKey "usd" 5) = none)
    (hp : ∀ n d, primary n ≠ .ok d) :
    (getCryptoImageUrl c now apiKey code).requests = [] ∧
    ProviderCall.primaryMarkets ∈
      (fetchTopCoins c now apiKey primary secondary "usd" 5).2.2 ∧
    ProviderCall.secondaryCurrencies ∈
      (fetchTopCoins c now apiKey primary secondary "usd" 5).2.2 :=
  ⟨getCryptoImageUrl_requests_rateLimited c now apiKey code hgate,
   primaryMarkets_mem_fetchTopCoins c now apiKey primary secondary "usd" 5 hmiss,
   secondaryCurrencies_mem_fetchTopCoins c now apiKey primary secondary "usd" 5 hmiss hp⟩

/-- Witness for C4's amended statement at a concrete gate-active state. -/
theorem spec_C4_amended_witness :
    (getCryptoImageUrl
      { imageCache := [], apiCache := [], apiCallAttempts := [],
        rateLimitedUntil := 7000, coinBlacklist := [] } 5 "key" "godsdollar").requests = [] ∧
    ProviderCall.primaryMarkets ∈
      (fetchTopCoins
        { imageCache := [], apiCache := [], apiCallAttempts := [],
          rateLimitedUntil := 7000, coinBlacklist := [] } 5 "key"
        (fun _ => ProviderResult.httpError none) (ProviderResult.httpError none)
        "usd" 5).2.2 ∧
    ProviderCall.secondaryCurrencies ∈
      (fetchTopCoins
        { imageCache := [], apiCache := [], apiCallAttempts := [],
          rateLimitedUntil := 7000, coinBlacklist := [] } 5 "key"
        (fun _ => ProviderResult.httpError none) (ProviderResult.httpError none)
        "usd" 5).2.2 :=
  spec_C4_amended _ 5 "key" "godsdollar" _ _ (by decide) rfl (by intro n d h; simp at h)

/-- C5 counterexample: a 429 response with no reset hint sets the gate for
60 seconds (the handler's own default), not the claimed 5 minutes. -/
theorem spec_C5_counterexample :
    (imageFetchComplete CryptoCache.init 0 "examplecoin"
        (FetchOutcome.response 429 none none)).rateLimitedUntil = 60 * 1000 ∧
    (60 * 1000 : Nat) ≠ 5 * 60 * 1000 := by
  constructor
  · decide
  · decide

/-- C5 amended: a 429 from the primary provider sets the gate to the
server-provided reset hint (in seconds) when the header is present and parses
to a nonzero value; when the header is absent the gate is a fixed 60-second
default (the 5-minute default inside `setRateLimited` is reached only for a
falsy wait value, e.g. an unparsable hint). -/
theorem spec_C5_amended (c : CryptoCache) (now : Nat) (coinId : String)
    (img : Option String) (s : String) (w : Nat)
    (hs : parseIntJS s = some w) (hw : w ≠ 0) (hsne : s ≠ "") :
    (imageFetchComplete c now coinId (.response 429 (some s) img)).rateLimitedUntil =
      now + w * 1000 ∧
    (imageFetchComplete c now coinId (.response 429 none img)).rateLimitedUntil =
      now + 60 * 1000 ∧
    (parseIntJS "x" = none →
      (imageFetchComplete c now coinId (.response 429 (some "x") img)).rateLimitedUntil =
        now + 5 * 60 * 1000) := by
  refine ⟨?_, ?_, ?_⟩
  · simp only [imageFetchComplete, if_pos rfl, hsne, if_pos, hs,
      CryptoCache.setRateLimited, hw, ite_true, ite_false]
    simp [hs, hsne, hw]
  · simp [imageFetchComplete, CryptoCache.setRateLimited]
  · intro hx
    simp [imageFetchComplete, CryptoCache.setRateLimited, hx]

/-- Witness for C5's amended statement at a concrete reset hint of 120 s. -/
theorem spec_C5_amended_witness :
    (imageFetchComplete CryptoCache.init 10 "examplecoin"
        (FetchOutcome.response 429 (some "120") none)).rateLimitedUntil =
      10 + 120 * 1000 ∧
    (imageFetchComplete CryptoCache.init 10 "examplecoin"
        (FetchOutcome.response 429 none none)).rateLimitedUntil = 10 + 60 * 1000 :=
  ⟨(spec_C5_amended CryptoCache.init 10 "examplecoin" none "120" 120 (by decide)
      (by decide) (by decide)).1,
   (spec_C5_amended CryptoCache.init 10 "examplecoin" none "120" 120 (by decide)
      (by decide) (by decide)).2.1⟩

/-- C6: after an identifier (already lowercase, as every id reaching the fetch
handler is) receives a 404 or 400 response, it is blacklisted; the blacklist
only ever grows across any sequence of session operations, and every later
image-resolution call for that identifier issues no provider request. -/
theorem spec_C6 (c : CryptoCache) (now : Nat) (coinId : String) (status : Nat)
    (resetHeader imageSmall : Option String)
    (hstatus : status = 404 ∨ status = 400)
    (hlow : jsToLower coinId = coinId)
    (ops : List SessionOp) (now2 : Nat) (apiKey2 code : String)
    (hcode : jsToLower code = coinId) :
    (imageFetchComplete c now coinId
        (.response status resetHeader imageSmall)).isBlacklisted coinId = true ∧
    (applyOps (imageFetchComplete c now coinId
        (.response status resetHeader imageSmall)) ops).isBlacklisted coinId = true ∧
    (getCryptoImageUrl
        (applyOps (imageFetchComplete c now coinId
          (.response status resetHeader imageSmall)) ops)
        now2 apiKey2 code).requests = [] := by
  have h429 : status ≠ 429 := by rcases hstatus with h | h <;> omega
  have hc1 : imageFetchComplete c now coinId (.response status resetHeader imageSmall) =
      c.addToBlacklist coinId := by
    simp only [imageFetchComplete]
    rw [if_neg h429, if_pos (by rcases hstatus with h | h; exacts [Or.inr h, Or.inl h] :
      status = 400 ∨ status = 404)]
  have hmem : jsToLower coinId ∈
      (imageFetchComplete c now coinId
        (.response status resetHeader imageSmall)).coinBlacklist := by
    rw [hc1]
    exact List.mem_cons_self _ _
  have hmem2 : jsToLower coinId ∈
      (applyOps (imageFetchComplete c now coinId
        (.response status resetHeader imageSmall)) ops).coinBlacklist :=
    blacklist_applyOps ops _ hmem
  refine ⟨?_, ?_, ?_⟩
  · rw [CryptoCache.isBlacklisted]
    exact decide_eq_true hmem
  · rw [CryptoCache.isBlacklisted]
    exact decide_eq_true hmem2
  · refine getCryptoImageUrl_requests_blacklisted _ now2 apiKey2 code ?_
    rw [CryptoCache.isBlacklisted]
    refine decide_eq_true ?_
    rw [hcode, hlow]
    exact hmem2

/-- Witness for C6: a concrete 404 for `badcoin` followed by a sweep and a
repeat image resolution for `BadCoin`. -/
theorem spec_C6_witness :
    (imageFetchComplete CryptoCache.init 0 "badcoin"
        (.response 404 none none)).isBlacklisted "badcoin" = true ∧
    (getCryptoImageUrl
        (applyOps (imageFetchComplete CryptoCache.init 0 "badcoin"
          (.response 404 none none)) [SessionOp.sweep 50])
        100 "key" "BadCoin").requests = [] :=
  ⟨(spec_C6 CryptoCache.init 0 "badcoin" 404 none none (Or.inl rfl) (by decide)
      [SessionOp.sweep 50] 100 "key" "BadCoin" (by decide)).1,
   (spec_C6 CryptoCache.init 0 "badcoin" 404 none none (Or.inl rfl) (by decide)
      [SessionOp.sweep 50] 100 "key" "BadCoin" (by decide)).2.2⟩

/-- C7: `searchCryptocurrencies` returns at most 15 rows for every query; an
empty or whitespace-only query returns `[]` synchronously with no request and
no state change; total provider failure also yields `[]`. -/
theorem spec_C7 (c : CryptoCache) (now : Nat) (apiKey : String)
    (oracle : ProviderResult (Option (List SearchResultItem))) (query : String) :
    (searchCryptocurrencies c now apiKey oracle query).1.length ≤ 15 ∧
    (jsTrim query = "" →
      searchCryptocurrencies c now apiKey oracle query = ([], c, [])) ∧
    (∀ st, oracle = .httpError st →
      (searchCryptocurrencies c now apiKey oracle query).1 = []) := by
  refine ⟨?_, ?_, ?_⟩
  · rw [searchCryptocurrencies.eq_def]
    split
    · simp
    · split
      · next coins =>
        have hlen := length_mapSearchItems now apiKey (coins.take 15) c
        simp only [hlen]
        exact List.length_take_le 15 coins
      · simp
      · simp
  · intro htrim
    rw [searchCryptocurrencies.eq_def, if_pos (Or.inr htrim)]
  · intro st hst
    rw [searchCryptocurrencies.eq_def]
    split
    · rfl
    · rw [hst]

/-- Witness for C7: a whitespace-only query at a concrete state. -/
theorem spec_C7_witness :
    searchCryptocurrencies CryptoCache.init 0 "" (ProviderResult.ok none) "  " =
      ([], CryptoCache.init, []) :=
  (spec_C7 CryptoCache.init 0 "" (ProviderResult.ok none) "  ").2.1 (by decide)

/-- C8: with no cached image entry for `bitcoin`, `getCryptoImageUrl('bitcoin')`
returns the local-asset-table path synchronously and issues no provider
request, because `bitcoin` is found in the local image table before any
provider strategy is consulted. -/
theorem spec_C8 (c : CryptoCache) (now : Nat) (apiKey : String)
    (hmiss : c.getImageUrl "bitcoin" = none) :
    (getCryptoImageUrl c now apiKey "bitcoin").url = "/src/images/crypto/bitcoin.png" ∧
    (getCryptoImageUrl c now apiKey "bitcoin").requests = [] := by
  have hlow : jsToLower "bitcoin" = "bitcoin" := by decide
  rw [getCryptoImageUrl, if_neg (by decide : ¬ ("bitcoin" : String) = "")]
  dsimp only
  rw [hlow, hmiss]
  rw [if_neg (by decide : ¬ ("bitcoin" : String) = "godd")]
  rw [show List.find? (fun p => decide (p.1 = "bitcoin")) localImageMap =
    some ("bitcoin", "/src/images/crypto/bitcoin.png") from by decide]
  exact ⟨rfl, rfl⟩

/-- Witness for C8 at the fresh module state. -/
theorem spec_C8_witness :
    (getCryptoImageUrl CryptoCache.init 0 "key" "bitcoin").url =
      "/src/images/crypto/bitcoin.png" ∧
    (getCryptoImageUrl CryptoCache.init 0 "key" "bitcoin").requests = [] :=
  spec_C8 CryptoCache.init 0 "key" rfl

/-- C9: the format helpers on the spec's sample inputs: 1234.5 → "$1,235",
2.5 → "$2.50", 0.0000456 → "$0.000046", -1.234 → "-1.23%" and
1.5e9 → "1.50B". -/
theorem spec_C9 :
    formatPrice 1234.5 = "$1,235" ∧
    formatPrice 2.5 = "$2.50" ∧
    formatPrice 0.0000456 = "$0.000046" ∧
    formatPriceChange (-1.234) = "-1.23%" ∧
    formatCompactNumber 1500000000 = "1.50B" := by
  refine ⟨?_, ?_, ?_, ?_, ?_⟩
  · have h : (⌊|(1234.5:ℚ)| * (10:ℚ) ^ (0:ℕ) + 1/2⌋ : ℤ) = 1235 := by
      norm_num [abs_of_nonneg]
    rw [formatPrice, if_pos (by norm_num), jsToFixed]
    simp only [if_neg (by norm_num : ¬ (1234.5:ℚ) < 0), h]
    decide
  · have h : (⌊|(2.5:ℚ)| * (10:ℚ) ^ (2:ℕ) + 1/2⌋ : ℤ) = 250 := by
      norm_num [abs_of_nonneg]
    rw [formatPrice, if_neg (by norm_num), if_pos (by norm_num), jsToFixed]
    simp only [if_neg (by norm_num : ¬ (2.5:ℚ) < 0), h]
    decide
  · have h : (⌊|(0.0000456:ℚ)| * (10:ℚ) ^ (6:ℕ) + 1/2⌋ : ℤ) = 46 := by
      norm_num [abs_of_nonneg]
    rw [formatPrice, if_neg (by norm_num), if_neg (by norm_num), jsToFixed]
    simp only [if_neg (by norm_num : ¬ (0.0000456:ℚ) < 0), h]
    decide
  · have h : (⌊|(-1.234:ℚ)| * (10:ℚ) ^ (2:ℕ) + 1/2⌋ : ℤ) = 123 := by
      norm_num [abs_of_nonpos]
    rw [formatPriceChange, jsToFixed]
    simp only [if_neg (by norm_num : ¬ (-1.234:ℚ) ≥ 0),
      if_pos (by norm_num : (-1.234:ℚ) < 0), h]
    decide
  · have h : (⌊|(1500000000:ℚ)/1000000000| * (10:ℚ) ^ (2:ℕ) + 1/2⌋ : ℤ) = 150 := by
      norm_num [abs_of_nonneg]
    rw [formatCompactNumber, if_neg (by norm_num), if_pos (by norm_num), jsToFixed]
    simp only [if_neg (by norm_num : ¬ (1500000000:ℚ)/1000000000 < 0), h]
    decide

/-- C10: `getCryptoImageUrl` lowercases the identifier before every lookup, so
two calls on the same state whose identifiers lowercase identically return the
same full result; after any call with a nonempty identifier the cache maps the
lowercased identifier to the returned URL, so an immediately repeated call
returns the value cached by the first; an empty identifier returns the fixed
placeholder path and leaves the state untouched. -/
theorem spec_C10 (c : CryptoCache) (now now2 : Nat) (apiKey apiKey2 : String)
    (code code2 : String) (hcase : jsToLower code = jsToLower code2) :
    getCryptoImageUrl c now apiKey code = getCryptoImageUrl c now apiKey code2 ∧
    (code ≠ "" →
      (getCryptoImageUrl c now apiKey code).cache.getImageUrl (jsToLower code) =
        some (getCryptoImageUrl c now apiKey code).url ∧
      (getCryptoImageUrl (getCryptoImageUrl c now apiKey code).cache
          now2 apiKey2 code).url =
        (getCryptoImageUrl c now apiKey code).url) ∧
    getCryptoImageUrl c now apiKey "" = ⟨DEFAULT_PLACEHOLDER, c, []⟩ ∧
    DEFAULT_PLACEHOLDER = "/public/placeholder.svg" := by
  have hempty : code = "" ↔ code2 = "" := by
    rw [← jsToLower_eq_empty_iff code, ← jsToLower_eq_empty_iff code2, hcase]
  refine ⟨?_, ?_, rfl, rfl⟩
  · by_cases he : code = ""
    · rw [he, hempty.mp he]
    · have he2 : code2 ≠ "" := fun h => he (hempty.mpr h)
      rw [getCryptoImageUrl, getCryptoImageUrl, if_neg he, if_neg he2]
      dsimp only
      rw [hcase]
  · intro hne
    have hpost := getCryptoImageUrl_cache_getImageUrl c now apiKey code hne
    refine ⟨hpost, ?_⟩
    conv_lhs => rw [getCryptoImageUrl, if_neg hne]
    dsimp only
    rw [hpost]

/-- Witness for C10: a concrete mixed-case pair on the fresh state. -/
theorem spec_C10_witness :
    getCryptoImageUrl CryptoCache.init 0 "key" "BTC" =
      getCryptoImageUrl CryptoCache.init 0 "key" "btc" ∧
    (getCryptoImageUrl (getCryptoImageUrl CryptoCache.init 0 "key" "BTC").cache
        7 "key" "BTC").url =
      (getCryptoImageUrl CryptoCache.init 0 "key" "BTC").url :=
  ⟨(spec_C10 CryptoCache.init 0 7 "key" "key" "BTC" "btc" (by decide)).1,
   ((spec_C10 CryptoCache.init 0 7 "key" "key" "BTC" "btc" (by decide)).2.1
     (by decide)).2⟩
